import Mathlib

/-!
Verification of the ning backend's key-value data-access layer and the
HTTP endpoint logic built on it (`app/core/memory_redis.py`,
`app/api/v1/endpoints/{auth,forum,study,agent}.py`).

The in-process fallback store `AsyncMemoryRedis` is embedded as a state
type `Mem` of association lists; Python runtime values stored in the
scalar map and in sets are modelled by `PyVal` (only `str` and `int`
occur in the program).  Time is an explicit `now : Nat` parameter
(seconds); every store operation first runs the lazy `_cleanup` sweep,
exactly as in the source.  Endpoints are state-passing functions
returning `Except HErr α × Mem`; the `runtime.redis_client is None`
guards (HTTP 500 when the store was never initialized) are outside the
model, which always runs with the store present.
-/

namespace Ning

/-- A value held in the fallback store's `_kv` dict or in a `_sets` entry
(`Any` in the source; only `str` and `int` are ever stored by the app). -/
inductive PyVal where
  | str (s : String)
  | int (n : Int)
deriving DecidableEq, Repr

/-- Python `str(v)` for a stored value. -/
def PyVal.toStr : PyVal → String
  | .str s => s
  | .int n => toString n

/-- Digits of a decimal string, accumulated left to right; `none` as soon
as a non-digit character is met or the string is empty. -/
def digitsToNat : List Char → Option Nat → Option Nat
  | [], acc => acc
  | c :: t, acc =>
    if c.isDigit then
      digitsToNat t (some ((acc.getD 0) * 10 + (c.toNat - 48)))
    else none

/-- Python `int(s)` on a string: optional sign followed by decimal digits;
`none` models the raised `ValueError`. -/
def pyStrToInt (s : String) : Option Int :=
  match s.data with
  | '-' :: rest => (digitsToNat rest none).map (fun n => -(n : Int))
  | '+' :: rest => (digitsToNat rest none).map (fun n => (n : Int))
  | l => (digitsToNat l none).map (fun n => (n : Int))

/-- Python `s.strip()`: remove leading and trailing whitespace. -/
def pyStrip (s : String) : String :=
  ⟨((s.data.dropWhile Char.isWhitespace).reverse.dropWhile Char.isWhitespace).reverse⟩

/-- Python `s.lower()`. -/
def pyLower (s : String) : String :=
  ⟨s.data.map Char.toLower⟩

/-- Python `int(v)`; `none` models the `ValueError`/`TypeError` raised on a
non-numeric string (which would surface as an HTTP 500). -/
def PyVal.toIntV : PyVal → Option Int
  | .int n => some n
  | .str s => pyStrToInt s

/-- Lookup in an association list (Python dict access `d.get(k)`). -/
def assocFind {α : Type} : List (String × α) → String → Option α
  | [], _ => none
  | (k', v) :: t, k => if k' = k then some v else assocFind t k

/-- Dict update `d[k] = v`; keeps at most one entry per key. -/
def assocSet {α : Type} (l : List (String × α)) (k : String) (v : α) : List (String × α) :=
  (k, v) :: l.filter (fun p => decide (p.1 ≠ k))

/-- Dict removal `d.pop(k, None)`. -/
def assocErase {α : Type} (l : List (String × α)) (k : String) : List (String × α) :=
  l.filter (fun p => decide (p.1 ≠ k))

/-- State of `AsyncMemoryRedis` (memory_redis.py): the `_kv`, `_hash`,
`_sets` and `_ttl` dictionaries.  Sets are kept as duplicate-free lists;
ttl entries are absolute expiry deadlines in seconds. -/
structure AsyncMemoryRedis where
  kv : List (String × PyVal)
  hash : List (String × List (String × String))
  sets : List (String × List PyVal)
  ttl : List (String × Nat)
deriving DecidableEq, Repr

abbrev Mem := AsyncMemoryRedis

/-- Keep a `_kv` entry during `_cleanup`: its deadline, if any, is in the future. -/
def keepKV (ttl : List (String × Nat)) (now : Nat) (k : String) : Bool :=
  match assocFind ttl k with
  | some t => decide (now < t)
  | none => true

/-- The `_cleanup` sweep: evict every scalar key whose deadline `t <= now`
has passed.  Hashes and sets are not subject to expiry. -/
def cleanup (now : Nat) (st : Mem) : Mem :=
  { st with
    kv := st.kv.filter (fun p => keepKV st.ttl now p.1),
    ttl := st.ttl.filter (fun p => decide (now < p.2)) }

/-- `AsyncMemoryRedis.get`. -/
def AsyncMemoryRedis.get (st : Mem) (now : Nat) (key : String) : Option String × Mem :=
  ((assocFind (cleanup now st).kv key).map PyVal.toStr, cleanup now st)

/-- `AsyncMemoryRedis.set` with the `nx` (set-if-absent) flag. -/
def AsyncMemoryRedis.set (st : Mem) (now : Nat) (key : String) (value : PyVal) (nx : Bool) :
    Bool × Mem :=
  if nx && (assocFind (cleanup now st).kv key).isSome then (false, cleanup now st)
  else (true, { cleanup now st with
                kv := assocSet (cleanup now st).kv key value,
                ttl := assocErase (cleanup now st).ttl key })

/-- `AsyncMemoryRedis.setex`: unconditional write with deadline `now + ttlSeconds`. -/
def AsyncMemoryRedis.setex (st : Mem) (now : Nat) (key : String) (ttlSeconds : Nat)
    (value : PyVal) : Bool × Mem :=
  (true, { cleanup now st with
           kv := assocSet (cleanup now st).kv key value,
           ttl := assocSet (cleanup now st).ttl key (now + ttlSeconds) })

/-- Current integer value of a scalar key as read by `incr`:
`int(self._kv.get(key, 0))`; `none` is the raised `ValueError`. -/
def curInt (st : Mem) (key : String) : Option Int :=
  match assocFind st.kv key with
  | none => some 0
  | some v => v.toIntV

/-- `AsyncMemoryRedis.incr`. -/
def AsyncMemoryRedis.incr (st : Mem) (now : Nat) (key : String) : Option Int × Mem :=
  match curInt (cleanup now st) key with
  | none => (none, cleanup now st)
  | some cur =>
    (some (cur + 1),
     { cleanup now st with kv := assocSet (cleanup now st).kv key (.int (cur + 1)) })

/-- `AsyncMemoryRedis.hset`: merge `mapping` into the hash at `key`. -/
def AsyncMemoryRedis.hset (st : Mem) (now : Nat) (key : String)
    (mapping : List (String × String)) : Int × Mem :=
  ((mapping.length : Int),
   { cleanup now st with
     hash := assocSet (cleanup now st).hash key
       (mapping.foldl (fun h p => assocSet h p.1 p.2)
         ((assocFind (cleanup now st).hash key).getD [])) })

/-- `AsyncMemoryRedis.hgetall`: empty mapping for a missing key. -/
def AsyncMemoryRedis.hgetall (st : Mem) (now : Nat) (key : String) :
    List (String × String) × Mem :=
  ((assocFind (cleanup now st).hash key).getD [], cleanup now st)

/-- Python `set.add` on the list representation. -/
def listAdd (l : List PyVal) (m : PyVal) : List PyVal :=
  if m ∈ l then l else l ++ [m]

/-- Python `set.discard` on the list representation. -/
def listRem (l : List PyVal) (m : PyVal) : List PyVal :=
  l.filter (fun x => decide (x ≠ m))

/-- `AsyncMemoryRedis.sadd`; returns how many members were new. -/
def AsyncMemoryRedis.sadd (st : Mem) (now : Nat) (key : String) (members : List PyVal) :
    Int × Mem :=
  (((members.foldl listAdd ((assocFind (cleanup now st).sets key).getD [])).length : Int) -
     ((((assocFind (cleanup now st).sets key).getD [] : List PyVal)).length : Int),
   { cleanup now st with
     sets := assocSet (cleanup now st).sets key
       (members.foldl listAdd ((assocFind (cleanup now st).sets key).getD [])) })

/-- `AsyncMemoryRedis.srem`; returns how many members were removed. -/
def AsyncMemoryRedis.srem (st : Mem) (now : Nat) (key : String) (members : List PyVal) :
    Int × Mem :=
  (((((assocFind (cleanup now st).sets key).getD [] : List PyVal)).length : Int) -
     ((members.foldl listRem ((assocFind (cleanup now st).sets key).getD [])).length : Int),
   { cleanup now st with
     sets := assocSet (cleanup now st).sets key
       (members.foldl listRem ((assocFind (cleanup now st).sets key).getD [])) })

/-- `AsyncMemoryRedis.smembers`. -/
def AsyncMemoryRedis.smembers (st : Mem) (now : Nat) (key : String) : List PyVal × Mem :=
  ((assocFind (cleanup now st).sets key).getD [], cleanup now st)

/-- `AsyncMemoryRedis.sismember`. -/
def AsyncMemoryRedis.sismember (st : Mem) (now : Nat) (key : String) (member : PyVal) :
    Bool × Mem :=
  (decide (member ∈ (assocFind (cleanup now st).sets key).getD []), cleanup now st)

/-- `AsyncMemoryRedis.scard`. -/
def AsyncMemoryRedis.scard (st : Mem) (now : Nat) (key : String) : Int × Mem :=
  (((((assocFind (cleanup now st).sets key).getD [] : List PyVal)).length : Int), cleanup now st)

/-- `AsyncMemoryRedis.delete`: removes a scalar (`_kv`) entry only — hash
and set structures under the same key are untouched, exactly as in the
source. -/
def AsyncMemoryRedis.delete (st : Mem) (now : Nat) (key : String) : Int × Mem :=
  ((if (assocFind (cleanup now st).kv key).isSome then (1 : Int) else 0),
   { cleanup now st with
     kv := assocErase (cleanup now st).kv key,
     ttl := assocErase (cleanup now st).ttl key })

/-! Endpoint layer.  `HErr` is a raised `HTTPException` (status, detail);
`keyErr` stands for an uncaught Python exception (`KeyError`/`ValueError`)
escaping a handler, which FastAPI surfaces as HTTP 500. -/

/-- A raised `HTTPException`: status code and detail string. -/
structure HErr where
  status : Nat
  detail : String
deriving DecidableEq, Repr

def unauthorizedErr : HErr := ⟨401, "Unauthorized"⟩

def invalidCredsErr : HErr := ⟨401, "Invalid credentials"⟩

/-- An uncaught `KeyError`/`ValueError` in a handler (HTTP 500). -/
def keyErr : HErr := ⟨500, "Internal Server Error"⟩

instance {ε α : Type} [DecidableEq ε] [DecidableEq α] : DecidableEq (Except ε α) := fun x y =>
  match x, y with
  | .ok a, .ok b =>
    if h : a = b then isTrue (by rw [h]) else isFalse (fun he => by cases he; exact h rfl)
  | .error a, .error b =>
    if h : a = b then isTrue (by rw [h]) else isFalse (fun he => by cases he; exact h rfl)
  | .ok _, .error _ => isFalse (fun he => by cases he)
  | .error _, .ok _ => isFalse (fun he => by cases he)

/-- Result of an endpoint call: the response or raised error, together
with the store state left behind (mutations made before a raise persist). -/
abbrev Res (α : Type) := Except HErr α × Mem

/-- Python truthiness test `if not x` for an `Optional[str]`. -/
def isFalsy : Option String → Bool
  | none => true
  | some s => s.isEmpty

/-- Python dict subscript `d[k]`: a missing key raises `KeyError`. -/
def dget (h : List (String × String)) (k : String) : Except HErr String :=
  match assocFind h k with
  | some v => .ok v
  | none => .error keyErr

/-- Python `int(x or 0)` on an optional string; `none` models the
`ValueError` raised on a non-numeric nonempty string. -/
def intOr0 : Option String → Option Int
  | none => some 0
  | some s => if s.isEmpty then some 0 else pyStrToInt s

structure UserPublic where
  id : String
  username : String
deriving DecidableEq, Repr

/-- `auth._get_user_by_username`. -/
def getUserByUsername (now : Nat) (username : String) (st : Mem) :
    Option (List (String × String)) × Mem :=
  let g := st.get now ("user:byname:" ++ username)
  if isFalsy g.1 then (none, g.2)
  else
    let h := g.2.hgetall now ("user:" ++ g.1.getD "")
    (if h.1.isEmpty then none else some h.1, h.2)

/-- `auth.register`.  `createdAt` stands for `_now_iso()` and `hashFn`
for `bcrypt.hash` (salted hashing made explicit as a function parameter). -/
def register (now : Nat) (createdAt : String) (hashFn : String → String)
    (username password : String) (st : Mem) : Res UserPublic :=
  let uname := pyStrip username
  if uname = "" then (.error ⟨400, "Username required"⟩, st)
  else
    let r := st.incr now "users:seq"
    match r.1 with
    | none => (.error keyErr, r.2)
    | some userId =>
      let passwordHash := hashFn password
      let s := r.2.set now ("user:byname:" ++ uname) (.int userId) true
      if !s.1 then (.error ⟨409, "Username already exists"⟩, s.2)
      else
        let h := s.2.hset now ("user:" ++ toString userId)
          [("id", toString userId), ("username", uname),
           ("password_hash", passwordHash), ("created_at", createdAt)]
        (.ok ⟨toString userId, uname⟩, h.2)

/-- `auth.login`.  `verify` stands for `bcrypt.verify(password, hash)`,
`token` for the generated opaque token and `ttl` for the configured
session TTL in seconds. -/
def login (now : Nat) (verify : String → String → Bool) (token : String) (ttl : Nat)
    (username password : String) (st : Mem) : Res String :=
  let uname := pyStrip username
  let u := getUserByUsername now uname st
  match u.1 with
  | none => (.error invalidCredsErr, u.2)
  | some user =>
    if !(verify password ((assocFind user "password_hash").getD "")) then
      (.error invalidCredsErr, u.2)
    else
      match dget user "id" with
      | .error e => (.error e, u.2)
      | .ok uid =>
        let s := u.2.setex now ("session:" ++ token) ttl (.str uid)
        let a := s.2.sadd now ("user:sessions:" ++ uid) [.str token]
        (.ok token, a.2)

/-- `auth._resolve_user_from_token`. -/
def resolveUserFromToken (now : Nat) (token : String) (st : Mem) :
    Res (List (String × String)) :=
  let g := st.get now ("session:" ++ token)
  if isFalsy g.1 then (.error unauthorizedErr, g.2)
  else
    let h := g.2.hgetall now ("user:" ++ g.1.getD "")
    if h.1.isEmpty then (.error unauthorizedErr, h.2)
    else (.ok h.1, h.2)

/-- `auth.logout`: always returns `{"ok": True}`. -/
def logout (now : Nat) (token : String) (st : Mem) : Res Bool :=
  let g := st.get now ("session:" ++ token)
  if !(isFalsy g.1) then
    let d := g.2.delete now ("session:" ++ token)
    let r := d.2.srem now ("user:sessions:" ++ g.1.getD "") [.str token]
    (.ok true, r.2)
  else (.ok true, g.2)

structure PostPublic where
  id : String
  title : String
  content : String
  author : String
  likes : Int
  comments : Int
  createdAt : String
deriving DecidableEq, Repr

structure CommentPublic where
  id : String
  content : String
  author : String
  createdAt : String
deriving DecidableEq, Repr

/-- `forum._get_user_by_token`. -/
def getUserByToken (now : Nat) (token : String) (st : Mem) : Res UserPublic :=
  let g := st.get now ("session:" ++ token)
  if isFalsy g.1 then (.error unauthorizedErr, g.2)
  else
    let h := g.2.hgetall now ("user:" ++ g.1.getD "")
    if h.1.isEmpty then (.error unauthorizedErr, h.2)
    else
      match dget h.1 "id", dget h.1 "username" with
      | .error e, _ => (.error e, h.2)
      | .ok _, .error e => (.error e, h.2)
      | .ok i, .ok u => (.ok ⟨i, u⟩, h.2)

/-- One iteration step's body shared by `get_post`/`update_post`: read
likes cardinality and comment counter, then build the public projection.
`nowIso` stands for the `_now_iso()` default used for a missing
`created_at` field. -/
def postProjection (nowIso : String) (postId : String)
    (data : List (String × String)) (likes comments : Int) : PostPublic :=
  ⟨postId, (assocFind data "title").getD "", (assocFind data "content").getD "",
   (assocFind data "author").getD "匿名宁友", likes, comments,
   (assocFind data "created_at").getD nowIso⟩

/-- `forum.get_post`. -/
def getPost (now : Nat) (nowIso : String) (postId : String) (st : Mem) : Res PostPublic :=
  let h := st.hgetall now ("forum:post:" ++ postId)
  if h.1.isEmpty || decide (assocFind h.1 "deleted" = some "1") then
    (.error ⟨404, "Post not found"⟩, h.2)
  else
    let c := h.2.scard now ("forum:post:" ++ postId ++ ":likes")
    let g := c.2.get now ("forum:post:" ++ postId ++ ":comments_cnt")
    match intOr0 g.1 with
    | none => (.error keyErr, g.2)
    | some comments => (.ok (postProjection nowIso postId h.1 c.1 comments), g.2)

/-- `forum.update_post`. -/
def updatePost (now : Nat) (nowIso : String) (postId : String)
    (title content : Option String) (token : String) (st : Mem) : Res PostPublic :=
  let h := st.hgetall now ("forum:post:" ++ postId)
  if h.1.isEmpty || decide (assocFind h.1 "deleted" = some "1") then
    (.error ⟨404, "Post not found"⟩, h.2)
  else
    let u := getUserByToken now token h.2
    match u.1 with
    | .error e => (.error e, u.2)
    | .ok user =>
      if assocFind h.1 "author_id" ≠ some user.id then (.error ⟨403, "Forbidden"⟩, u.2)
      else
        let mapping :=
          (match title with | some t => [("title", t)] | none => []) ++
          (match content with | some c => [("content", c)] | none => [])
        let st1 := if mapping.isEmpty then u.2
                   else (u.2.hset now ("forum:post:" ++ postId) mapping).2
        let c := st1.scard now ("forum:post:" ++ postId ++ ":likes")
        let g := c.2.get now ("forum:post:" ++ postId ++ ":comments_cnt")
        match intOr0 g.1 with
        | none => (.error keyErr, g.2)
        | some comments =>
          let f := g.2.hgetall now ("forum:post:" ++ postId)
          (.ok (postProjection nowIso postId f.1 c.1 comments), f.2)

/-- `forum.delete_post`: soft delete by the author only. -/
def deletePost (now : Nat) (postId : String) (token : String) (st : Mem) : Res Bool :=
  let h := st.hgetall now ("forum:post:" ++ postId)
  if h.1.isEmpty || decide (assocFind h.1 "deleted" = some "1") then
    (.error ⟨404, "Post not found"⟩, h.2)
  else
    let u := getUserByToken now token h.2
    match u.1 with
    | .error e => (.error e, u.2)
    | .ok user =>
      if assocFind h.1 "author_id" ≠ some user.id then (.error ⟨403, "Forbidden"⟩, u.2)
      else
        let w := u.2.hset now ("forum:post:" ++ postId) [("deleted", "1")]
        (.ok true, w.2)

/-- `forum.toggle_like`: read-modify-write flip of the caller's membership
in the likes set; reports the new membership and new cardinality. -/
def toggleLike (now : Nat) (postId : String) (token : String) (st : Mem) :
    Res (Bool × Int) :=
  let u := getUserByToken now token st
  match u.1 with
  | .error e => (.error e, u.2)
  | .ok user =>
    let key := "forum:post:" ++ postId ++ ":likes"
    let m := u.2.sismember now key (.str user.id)
    if m.1 then
      let r := m.2.srem now key [.str user.id]
      let c := r.2.scard now key
      (.ok (false, c.1), c.2)
    else
      let a := m.2.sadd now key [.str user.id]
      let c := a.2.scard now key
      (.ok (true, c.1), c.2)

/-- Loop of `forum.list_posts`: iterate ids from the current fuel value
down to 1, discarding the first `offset` iterations and collecting at
most `limit` non-deleted posts. -/
def postsLoop (now : Nat) (nowIso : String) (offset limit : Int) :
    Nat → Nat → Nat → Mem → List PostPublic → Res (List PostPublic)
  | 0, _, _, st, items => (.ok items, st)
  | i + 1, count, idx, st, items =>
    if ¬((count : Int) < limit) then (.ok items, st)
    else if offset ≤ (idx : Int) then
      let h := st.hgetall now ("forum:post:" ++ toString (i + 1))
      if !h.1.isEmpty && !(decide (assocFind h.1 "deleted" = some "1")) then
        let c := h.2.scard now ("forum:post:" ++ toString (i + 1) ++ ":likes")
        let g := c.2.get now ("forum:post:" ++ toString (i + 1) ++ ":comments_cnt")
        match intOr0 g.1 with
        | none => (.error keyErr, g.2)
        | some comments =>
          postsLoop now nowIso offset limit i (count + 1) (idx + 1) g.2
            (items ++ [postProjection nowIso (toString (i + 1)) h.1 c.1 comments])
      else postsLoop now nowIso offset limit i count (idx + 1) h.2 items
    else postsLoop now nowIso offset limit i count (idx + 1) st items

/-- `forum.list_posts`. -/
def listPosts (now : Nat) (nowIso : String) (offset limit : Int) (st : Mem) :
    Res (List PostPublic) :=
  let g := st.get now "forum:post_seq"
  match intOr0 g.1 with
  | none => (.error keyErr, g.2)
  | some maxId => postsLoop now nowIso offset limit maxId.toNat 0 0 g.2 []

/-- Loop of `forum.list_comments`: `i` is the current comment index,
the second argument the number of indices left to visit. -/
def commentsLoop (now : Nat) (nowIso : String) (postId : String) :
    Nat → Nat → Mem → List CommentPublic → List CommentPublic × Mem
  | _, 0, st, items => (items, st)
  | i, r + 1, st, items =>
    let h := st.hgetall now ("forum:comment:" ++ postId ++ ":" ++ toString i)
    if !h.1.isEmpty && !(decide (assocFind h.1 "deleted" = some "1")) then
      commentsLoop now nowIso postId (i + 1) r h.2
        (items ++ [⟨toString i, (assocFind h.1 "content").getD "",
                    (assocFind h.1 "author").getD "匿名宁友",
                    (assocFind h.1 "created_at").getD nowIso⟩])
    else commentsLoop now nowIso postId (i + 1) r h.2 items

/-- `forum.list_comments`. -/
def listComments (now : Nat) (nowIso : String) (postId : String) (st : Mem) :
    Res (List CommentPublic) :=
  let g := st.get now ("forum:post:" ++ postId ++ ":comments_cnt")
  match intOr0 g.1 with
  | none => (.error keyErr, g.2)
  | some cnt =>
    let l := commentsLoop now nowIso postId 1 cnt.toNat g.2 []
    (.ok l.1, l.2)

/-- `forum.delete_comment`: resolves the caller first, then checks
existence, soft-delete flag and ownership. -/
def deleteComment (now : Nat) (commentId postId : String) (token : String) (st : Mem) :
    Res Bool :=
  let u := getUserByToken now token st
  match u.1 with
  | .error e => (.error e, u.2)
  | .ok user =>
    let h := u.2.hgetall now ("forum:comment:" ++ postId ++ ":" ++ commentId)
    if h.1.isEmpty || decide (assocFind h.1 "deleted" = some "1") then
      (.error ⟨404, "Comment not found"⟩, h.2)
    else if assocFind h.1 "author_id" ≠ some user.id then (.error ⟨403, "Forbidden"⟩, h.2)
    else
      let w := h.2.hset now ("forum:comment:" ++ postId ++ ":" ++ commentId) [("deleted", "1")]
      (.ok true, w.2)

structure MistakePublic where
  id : String
  titleSlug : String
  title : String
  difficulty : Option String
  tags : List String
  note : Option String
  createdAt : String
deriving DecidableEq, Repr

/-- Loop of `study.add_mistake` over `payload.tags`, incrementing the
per-tag counters; `none` propagates a counter parse failure. -/
def tagsLoop (now : Nat) (uid : String) : List String → Mem → Option Unit × Mem
  | [], st => (some (), st)
  | t :: ts, st =>
    let r := st.incr now ("study:" ++ uid ++ ":tag:" ++ t)
    match r.1 with
    | none => (none, r.2)
    | some _ => tagsLoop now uid ts r.2

/-- `study.add_mistake`.  `nowIso` stands for `_now_iso()`; the trend day
is its first 10 characters. -/
def addMistake (now : Nat) (nowIso : String) (token titleSlug title : String)
    (difficulty : Option String) (tags : List String) (note : Option String)
    (st : Mem) : Res MistakePublic :=
  let g := st.get now ("session:" ++ token)
  if isFalsy g.1 then (.error unauthorizedErr, g.2)
  else
    let uid := g.1.getD ""
    let r := g.2.incr now ("study:" ++ uid ++ ":mistakes_seq")
    match r.1 with
    | none => (.error keyErr, r.2)
    | some mid =>
      let h := r.2.hset now ("study:" ++ uid ++ ":mistake:" ++ toString mid)
        [("id", toString mid), ("titleSlug", titleSlug), ("title", title),
         ("difficulty", difficulty.getD ""), ("tags", String.intercalate "," tags),
         ("note", note.getD ""), ("created_at", nowIso)]
      let a := h.2.sadd now ("study:" ++ uid ++ ":mistakes") [.int mid]
      let dres : Option Int × Mem :=
        if isFalsy difficulty then (some 0, a.2)
        else a.2.incr now ("study:" ++ uid ++ ":difficulty:" ++ difficulty.getD "")
      match dres.1 with
      | none => (.error keyErr, dres.2)
      | some _ =>
        let tres := tagsLoop now uid tags dres.2
        match tres.1 with
        | none => (.error keyErr, tres.2)
        | some _ =>
          let day := nowIso.take 10
          let tr := tres.2.incr now ("study:" ++ uid ++ ":trend:" ++ day)
          match tr.1 with
          | none => (.error keyErr, tr.2)
          | some _ =>
            (.ok ⟨toString mid, titleSlug, title, difficulty, tags, note, nowIso⟩, tr.2)

/-- `study.delete_mistake`: silently succeeds when the record is missing;
otherwise calls `delete` on the record key and `srem` with the (string)
path id.  Counter decrements are deliberately skipped in the source. -/
def deleteMistake (now : Nat) (token mid : String) (st : Mem) : Res Bool :=
  let g := st.get now ("session:" ++ token)
  if isFalsy g.1 then (.error unauthorizedErr, g.2)
  else
    let uid := g.1.getD ""
    let h := g.2.hgetall now ("study:" ++ uid ++ ":mistake:" ++ mid)
    if h.1.isEmpty then (.ok true, h.2)
    else
      let d := h.2.delete now ("study:" ++ uid ++ ":mistake:" ++ mid)
      let r := d.2.srem now ("study:" ++ uid ++ ":mistakes") [.str mid]
      (.ok true, r.2)

structure StatsResponse where
  total : Int
  byDifficulty : List (String × Int)
  byTag : List (String × Int)
  recentTrend : List (String × Int)
deriving DecidableEq, Repr

/-- Python `s.split(",")` (collect maximal comma-free chunks). -/
def splitCommaGo : List Char → List Char → List String
  | [], acc => [⟨acc.reverse⟩]
  | c :: t, acc =>
    if c = ',' then ⟨acc.reverse⟩ :: splitCommaGo t [] else splitCommaGo t (c :: acc)

def pySplitComma (s : String) : List String := splitCommaGo s.data []

/-- The tag list of a stored mistake record:
`[t for t in (data.get("tags","").split(",") if data.get("tags") else []) if t]`. -/
def splitTags (data : List (String × String)) : List String :=
  let raw := (assocFind data "tags").getD ""
  if raw = "" then [] else (pySplitComma raw).filter (fun t => decide (t ≠ ""))

/-- Dict counting update `d[t] = d.get(t, 0) + 1`, insertion-ordered. -/
def bump : List (String × Int) → String → List (String × Int)
  | [], k => [(k, 1)]
  | (k', n) :: t, k => if k' = k then (k', n + 1) :: t else (k', n) :: bump t k

/-- Loop of `study.stats` over the `Easy`/`Medium`/`Hard` counters. -/
def byDiffLoop (now : Nat) (uid : String) :
    List String → Mem → List (String × Int) → Option (List (String × Int)) × Mem
  | [], st, acc => (some acc, st)
  | d :: ds, st, acc =>
    let g := st.get now ("study:" ++ uid ++ ":difficulty:" ++ d)
    if isFalsy g.1 then byDiffLoop now uid ds g.2 (acc ++ [(d, 0)])
    else
      match pyStrToInt (g.1.getD "") with
      | none => (none, g.2)
      | some n => byDiffLoop now uid ds g.2 (acc ++ [(d, n)])

/-- Loop of `study.stats` recomputing `byTag` from the live mistake
records referenced by the membership set. -/
def byTagLoop (now : Nat) (uid : String) :
    List PyVal → Mem → List (String × Int) → List (String × Int) × Mem
  | [], st, acc => (acc, st)
  | m :: ms, st, acc =>
    let h := st.hgetall now ("study:" ++ uid ++ ":mistake:" ++ m.toStr)
    byTagLoop now uid ms h.2 ((splitTags h.1).foldl bump acc)

/-- Loop of `study.stats` over the last `days` per-day trend counters;
`dayOf i` stands for `(today - timedelta(days=i)).isoformat()`. -/
def trendLoop (now : Nat) (uid : String) (dayOf : Nat → String) :
    Nat → Nat → Mem → List (String × Int) → Option (List (String × Int)) × Mem
  | _, 0, st, acc => (some acc, st)
  | i, r + 1, st, acc =>
    let day := dayOf i
    let g := st.get now ("study:" ++ uid ++ ":trend:" ++ day)
    if isFalsy g.1 then trendLoop now uid dayOf (i + 1) r g.2 (acc ++ [(day, 0)])
    else
      match pyStrToInt (g.1.getD "") with
      | none => (none, g.2)
      | some n => trendLoop now uid dayOf (i + 1) r g.2 (acc ++ [(day, n)])

/-- `study.stats`. -/
def stats (now : Nat) (dayOf : Nat → String) (days : Int) (token : String) (st : Mem) :
    Res StatsResponse :=
  let g := st.get now ("session:" ++ token)
  if isFalsy g.1 then (.error unauthorizedErr, g.2)
  else
    let uid := g.1.getD ""
    let mem1 := g.2.smembers now ("study:" ++ uid ++ ":mistakes")
    let total : Int := mem1.1.length
    let bd := byDiffLoop now uid ["Easy", "Medium", "Hard"] mem1.2 []
    match bd.1 with
    | none => (.error keyErr, bd.2)
    | some byDifficulty =>
      let mem2 := bd.2.smembers now ("study:" ++ uid ++ ":mistakes")
      let bt := byTagLoop now uid mem2.1 mem2.2 []
      let tr := trendLoop now uid dayOf 0 days.toNat bt.2 []
      match tr.1 with
      | none => (.error keyErr, tr.2)
      | some trend =>
        (.ok ⟨total, byDifficulty, bt.1, trend.reverse⟩, tr.2)

structure ChatResponse where
  reply : String
  tips : Option String
  score : Option Int
deriving DecidableEq, Repr

/-- Does the first character list start with the second? -/
def startsWithL : List Char → List Char → Bool
  | _, [] => true
  | [], _ :: _ => false
  | a :: as, b :: bs => decide (a = b) && startsWithL as bs

/-- Does the second character list occur inside the first? -/
def containsL : List Char → List Char → Bool
  | [], pat => pat.isEmpty
  | a :: t, pat => startsWithL (a :: t) pat || containsL t pat

/-- Python substring test `pat in s`. -/
def strContains (s pat : String) : Bool :=
  containsL s.data pat.data

/-- `agent._rule_based_reply`: fixed keyword rules evaluated in priority
order on the lowercased message, with a generic fallback interpolating
the session's role and focus. -/
def ruleBasedReply (message role focus : String) : ChatResponse :=
  let text := pyLower message
  if ["hello", "hi", "你好"].any (fun k => strContains text k) then
    ⟨"你好，我是你的模拟面试官。请先简要介绍一下自己和擅长方向。",
     some "条理清晰，突出关键成绩。", none⟩
  else if ["二分", "binary search"].any (fun k => strContains text k) then
    ⟨"二分查找的时间复杂度是多少？在旋转数组中如何应用？",
     some "先给出 O(log n)；再讲不变式与边界处理。", some 7⟩
  else if ["hash", "哈希"].any (fun k => strContains text k) then
    ⟨"说说哈希冲突的常见解决方案，以及适用场景。",
     some "拉链法、开放寻址、再哈希。", none⟩
  else if ["dp", "动态规划"].any (fun k => strContains text k) then
    ⟨"给出一道背包或最长子序列类 DP 的状态定义与转移。",
     some "状态压缩可作为加分项。", some 8⟩
  else if ["tcp", "三次握手", "四次挥手"].any (fun k => strContains text k) then
    ⟨"请简述 TCP 三次握手与四次挥手的过程与原因。",
     some "半关闭、TIME_WAIT、RST 情况。", none⟩
  else
    ⟨"针对" ++ (if role = "" then "通用岗位" else role) ++ "（方向：" ++
       (if focus = "" then "综合" else focus) ++ "），请阐述你最熟悉的项目难点与优化。",
     some "结构化表达：背景-问题-方案-效果-复盘。", none⟩

/-! Basic lemmas about association lists, the lazy-expiry sweep, and the
behaviour of store operations on states with no expired key. -/

theorem assocFind_mem {α : Type} {l : List (String × α)} {k : String} {v : α}
    (h : assocFind l k = some v) : (k, v) ∈ l := by
  induction l with
  | nil => simp [assocFind] at h
  | cons a t ih =>
    obtain ⟨k1, v1⟩ := a
    simp only [assocFind] at h
    by_cases he : k1 = k
    · rw [if_pos he] at h
      cases h
      subst he
      exact List.mem_cons_self _ _
    · rw [if_neg he] at h
      exact List.mem_cons_of_mem _ (ih h)

theorem assocFind_filter_none {α : Type} {l : List (String × α)} {k : String}
    {p : String × α → Bool} (h : ∀ v, p (k, v) = false) :
    assocFind (l.filter p) k = none := by
  induction l with
  | nil => rfl
  | cons a t ih =>
    obtain ⟨k1, v1⟩ := a
    by_cases hk : k1 = k
    · subst hk
      rw [List.filter_cons, if_neg (by simp [h v1])]
      exact ih
    · by_cases hp : p (k1, v1) = true
      · rw [List.filter_cons, if_pos (by simp [hp])]
        simp only [assocFind, if_neg hk]
        exact ih
      · rw [List.filter_cons, if_neg (by simp [hp])]
        exact ih

theorem assocFind_filter_same {α : Type} {l : List (String × α)} {k : String}
    {p : String × α → Bool} (h : ∀ v, p (k, v) = true) :
    assocFind (l.filter p) k = assocFind l k := by
  induction l with
  | nil => rfl
  | cons a t ih =>
    obtain ⟨k1, v1⟩ := a
    by_cases hk : k1 = k
    · subst hk
      rw [List.filter_cons, if_pos (by simp [h v1])]
      simp [assocFind]
    · by_cases hp : p (k1, v1) = true
      · rw [List.filter_cons, if_pos (by simp [hp])]
        simp only [assocFind, if_neg hk]
        exact ih
      · rw [List.filter_cons, if_neg (by simp [hp])]
        simp only [assocFind, if_neg hk]
        exact ih

theorem assocFind_set_self {α : Type} (l : List (String × α)) (k : String) (v : α) :
    assocFind (assocSet l k v) k = some v := by
  simp [assocSet, assocFind]

theorem assocFind_set_ne {α : Type} (l : List (String × α)) (k : String) (v : α)
    {k2 : String} (h : k2 ≠ k) : assocFind (assocSet l k v) k2 = assocFind l k2 := by
  rw [assocSet, assocFind, if_neg (fun he => h he.symm)]
  exact assocFind_filter_same (fun _ => decide_eq_true h)

theorem assocFind_erase_self {α : Type} (l : List (String × α)) (k : String) :
    assocFind (assocErase l k) k = none :=
  assocFind_filter_none (fun _ => by simp)

theorem assocFind_erase_ne {α : Type} (l : List (String × α)) (k : String)
    {k2 : String} (h : k2 ≠ k) : assocFind (assocErase l k) k2 = assocFind l k2 :=
  assocFind_filter_same (fun _ => decide_eq_true h)

/-- A state with no expired scalar key: every ttl deadline is in the future. -/
def Clean (now : Nat) (st : Mem) : Prop := ∀ p ∈ st.ttl, now < p.2

instance (now : Nat) (st : Mem) : Decidable (Clean now st) :=
  List.decidableBAll _ _

theorem cleanup_of_clean {now : Nat} {st : Mem} (h : Clean now st) :
    cleanup now st = st := by
  unfold cleanup
  have h1 : st.kv.filter (fun p => keepKV st.ttl now p.1) = st.kv := by
    apply List.filter_eq_self.mpr
    intro a _
    unfold keepKV
    cases heq : assocFind st.ttl a.1 with
    | none => rfl
    | some t => exact decide_eq_true (h _ (assocFind_mem heq))
  have h2 : st.ttl.filter (fun p => decide (now < p.2)) = st.ttl :=
    List.filter_eq_self.mpr (fun a ha => decide_eq_true (h a ha))
  rw [h1, h2]

theorem clean_cleanup (now : Nat) (st : Mem) : Clean now (cleanup now st) := by
  intro p hp
  have := (List.mem_filter.mp hp).2
  exact of_decide_eq_true this

theorem Clean.of_same {now : Nat} {st : Mem} (h : Clean now st)
    (kv2 : List (String × PyVal)) (hash2 : List (String × List (String × String)))
    (sets2 : List (String × List PyVal)) : Clean now ⟨kv2, hash2, sets2, st.ttl⟩ := h

theorem Clean.of_erase {now : Nat} {st : Mem} (h : Clean now st)
    (kv2 : List (String × PyVal)) (hash2 : List (String × List (String × String)))
    (sets2 : List (String × List PyVal)) (k : String) :
    Clean now ⟨kv2, hash2, sets2, assocErase st.ttl k⟩ :=
  fun p hp => h p (List.mem_filter.mp hp).1

theorem Clean.of_setex {now d : Nat} {st : Mem} (h : Clean now st) (hd : 0 < d)
    (kv2 : List (String × PyVal)) (hash2 : List (String × List (String × String)))
    (sets2 : List (String × List PyVal)) (k : String) :
    Clean now ⟨kv2, hash2, sets2, assocSet st.ttl k (now + d)⟩ := by
  intro p hp
  rcases List.mem_cons.mp hp with he | hm
  · rw [he]
    exact Nat.lt_add_of_pos_right hd
  · exact h p (List.mem_filter.mp hm).1

/-! Behaviour of each operation on a clean state: the `_cleanup` sweep is
the identity, so the operation acts directly on the given dictionaries. -/

theorem get_clean {now : Nat} {st : Mem} (h : Clean now st) (k : String) :
    st.get now k = ((assocFind st.kv k).map PyVal.toStr, st) := by
  unfold AsyncMemoryRedis.get
  rw [cleanup_of_clean h]

theorem set_clean {now : Nat} {st : Mem} (h : Clean now st) (k : String) (v : PyVal)
    (nx : Bool) :
    st.set now k v nx =
      if nx && (assocFind st.kv k).isSome then (false, st)
      else (true, { st with
                    kv := assocSet st.kv k v,
                    ttl := assocErase st.ttl k }) := by
  unfold AsyncMemoryRedis.set
  rw [cleanup_of_clean h]

theorem setex_clean {now : Nat} {st : Mem} (h : Clean now st) (k : String) (d : Nat)
    (v : PyVal) :
    st.setex now k d v =
      (true, { st with
               kv := assocSet st.kv k v,
               ttl := assocSet st.ttl k (now + d) }) := by
  unfold AsyncMemoryRedis.setex
  rw [cleanup_of_clean h]

theorem incr_clean_some {now : Nat} {st : Mem} (h : Clean now st) {k : String} {n : Int}
    (hc : curInt st k = some n) :
    st.incr now k = (some (n + 1), { st with kv := assocSet st.kv k (.int (n + 1)) }) := by
  unfold AsyncMemoryRedis.incr
  rw [cleanup_of_clean h, hc]

theorem incr_clean_none {now : Nat} {st : Mem} (h : Clean now st) {k : String}
    (hc : curInt st k = none) : st.incr now k = (none, st) := by
  unfold AsyncMemoryRedis.incr
  rw [cleanup_of_clean h, hc]

theorem hset_clean {now : Nat} {st : Mem} (h : Clean now st) (k : String)
    (m : List (String × String)) :
    st.hset now k m =
      ((m.length : Int),
       { st with
         hash := assocSet st.hash k
           (m.foldl (fun h p => assocSet h p.1 p.2) ((assocFind st.hash k).getD [])) }) := by
  unfold AsyncMemoryRedis.hset
  rw [cleanup_of_clean h]

theorem hgetall_clean {now : Nat} {st : Mem} (h : Clean now st) (k : String) :
    st.hgetall now k = ((assocFind st.hash k).getD [], st) := by
  unfold AsyncMemoryRedis.hgetall
  rw [cleanup_of_clean h]

theorem sadd_clean {now : Nat} {st : Mem} (h : Clean now st) (k : String)
    (ms : List PyVal) :
    st.sadd now k ms =
      (((ms.foldl listAdd ((assocFind st.sets k).getD [])).length : Int) -
         ((((assocFind st.sets k).getD []) : List PyVal).length : Int),
       { st with
         sets := assocSet st.sets k (ms.foldl listAdd ((assocFind st.sets k).getD [])) }) := by
  unfold AsyncMemoryRedis.sadd
  rw [cleanup_of_clean h]

theorem srem_clean {now : Nat} {st : Mem} (h : Clean now st) (k : String)
    (ms : List PyVal) :
    st.srem now k ms =
      ((((assocFind st.sets k).getD [] : List PyVal).length : Int) -
         ((ms.foldl listRem ((assocFind st.sets k).getD [])).length : Int),
       { st with
         sets := assocSet st.sets k (ms.foldl listRem ((assocFind st.sets k).getD [])) }) := by
  unfold AsyncMemoryRedis.srem
  rw [cleanup_of_clean h]

theorem smembers_clean {now : Nat} {st : Mem} (h : Clean now st) (k : String) :
    st.smembers now k = ((assocFind st.sets k).getD [], st) := by
  unfold AsyncMemoryRedis.smembers
  rw [cleanup_of_clean h]

theorem sismember_clean {now : Nat} {st : Mem} (h : Clean now st) (k : String)
    (m : PyVal) :
    st.sismember now k m = (decide (m ∈ (assocFind st.sets k).getD []), st) := by
  unfold AsyncMemoryRedis.sismember
  rw [cleanup_of_clean h]

theorem scard_clean {now : Nat} {st : Mem} (h : Clean now st) (k : String) :
    st.scard now k = ((((assocFind st.sets k).getD [] : List PyVal).length : Int), st) := by
  unfold AsyncMemoryRedis.scard
  rw [cleanup_of_clean h]

theorem delete_clean {now : Nat} {st : Mem} (h : Clean now st) (k : String) :
    st.delete now k =
      ((if (assocFind st.kv k).isSome then 1 else 0 : Int),
       { st with
         kv := assocErase st.kv k,
         ttl := assocErase st.ttl k }) := by
  unfold AsyncMemoryRedis.delete
  rw [cleanup_of_clean h]

/-- Distinct key names: a key built by appending to a longer literal can
never equal a shorter literal. -/
theorem append_ne_of_shorter (a x b : String) (h : b.length < a.length) : a ++ x ≠ b := by
  intro he
  have hl : (a ++ x).length = b.length := by rw [he]
  rw [String.length_append] at hl
  omega

theorem isFalsy_some_ne {s : String} (h : s ≠ "") : isFalsy (some s) = false := by
  show s.isEmpty = false
  cases hb : s.isEmpty with
  | false => rfl
  | true => exact absurd ((String.isEmpty_iff s).mp hb) h

/-- A scalar key whose deadline has passed reads as absent, with no eager
sweep: the read path's lazy cleanup suffices. -/
theorem get_fst_none_of_expired {now t : Nat} {st : Mem} {k : String}
    (ht : assocFind st.ttl k = some t) (hle : t ≤ now) :
    (st.get now k).1 = none := by
  unfold AsyncMemoryRedis.get
  have hnone : assocFind (cleanup now st).kv k = none := by
    apply assocFind_filter_none
    intro v
    unfold keepKV
    rw [ht]
    simp only [decide_eq_false_iff_not]
    omega
  show (assocFind (cleanup now st).kv k).map PyVal.toStr = none
  rw [hnone]
  rfl

theorem get_snd (st : Mem) (now : Nat) (k : String) : (st.get now k).2 = cleanup now st := rfl

theorem not_mem_listRem (l : List PyVal) (m : PyVal) : m ∉ listRem l m := by
  intro hm
  have hd := (List.mem_filter.mp hm).2
  exact absurd rfl (of_decide_eq_true hd)

/-! Claim theorems. -/

/-- C2: every key written via `setex` with TTL `d` seconds at time `t0`
reads as absent at every time past the deadline `t0 + d`, even though no
eager sweep runs; consequently resolving a session token stored with
`setex` fails with Unauthorized (401) once the TTL has elapsed. -/
theorem c2_expired_key_reads_absent :
    (∀ (st : Mem) (t0 d now : Nat) (key : String) (v : PyVal),
       t0 + d ≤ now → ((st.setex t0 key d v).2.get now key).1 = none) ∧
    (∀ (st : Mem) (t0 d now : Nat) (token : String) (v : PyVal),
       t0 + d ≤ now →
       (resolveUserFromToken now token
          (st.setex t0 ("session:" ++ token) d v).2).1 = Except.error unauthorizedErr) := by
  have hget : ∀ (st : Mem) (t0 d now : Nat) (key : String) (v : PyVal),
      t0 + d ≤ now → ((st.setex t0 key d v).2.get now key).1 = none := by
    intro st t0 d now key v hle
    apply get_fst_none_of_expired (t := t0 + d)
    · exact assocFind_set_self _ _ _
    · exact hle
  refine ⟨hget, ?_⟩
  intro st t0 d now token v hle
  have h1 := hget st t0 d now ("session:" ++ token) v hle
  simp only [resolveUserFromToken, h1, isFalsy, if_true]

theorem c2_expired_key_reads_absent_witness :
    (((⟨[], [], [], []⟩ : Mem).setex 0 "k" 5 (.str "x")).2.get 5 "k").1 = none ∧
    (resolveUserFromToken 5 "t"
       ((⟨[], [], [], []⟩ : Mem).setex 0 ("session:" ++ "t") 5 (.str "1")).2).1 =
      Except.error unauthorizedErr :=
  ⟨c2_expired_key_reads_absent.1 ⟨[], [], [], []⟩ 0 5 5 "k" (.str "x") (by decide),
   c2_expired_key_reads_absent.2 ⟨[], [], [], []⟩ 0 5 5 "t" (.str "1") (by decide)⟩

/-- C9: the chat reply generator is a total, deterministic, pure function
of (message, role, focus); the message "你好" yields the greeting reply;
every message containing "二分" with no higher-priority (greeting) keyword
yields the binary-search prompt with numeric score 7. -/
theorem c9_rule_reply_pure_and_keyed :
    (∀ m r f m2 r2 f2, m = m2 → r = r2 → f = f2 →
       ruleBasedReply m r f = ruleBasedReply m2 r2 f2) ∧
    (∀ role focus, ruleBasedReply "你好" role focus =
       ⟨"你好，我是你的模拟面试官。请先简要介绍一下自己和擅长方向。",
        some "条理清晰，突出关键成绩。", none⟩) ∧
    (∀ m role focus,
       strContains (pyLower m) "二分" = true →
       strContains (pyLower m) "hello" = false →
       strContains (pyLower m) "hi" = false →
       strContains (pyLower m) "你好" = false →
       ruleBasedReply m role focus =
         ⟨"二分查找的时间复杂度是多少？在旋转数组中如何应用？",
          some "先给出 O(log n)；再讲不变式与边界处理。", some 7⟩) := by
  refine ⟨fun m r f m2 r2 f2 h1 h2 h3 => by rw [h1, h2, h3], fun role focus => rfl, ?_⟩
  intro m role focus h1 h2 h3 h4
  simp only [ruleBasedReply, List.any_cons, List.any_nil, h1, h2, h3, h4,
    Bool.or_false, Bool.or_self, Bool.true_or, if_true, Bool.false_eq_true, if_false]

theorem c9_rule_reply_pure_and_keyed_witness :
    ruleBasedReply "请讲讲二分" "backend" "algorithms" =
      ⟨"二分查找的时间复杂度是多少？在旋转数组中如何应用？",
       some "先给出 O(log n)；再讲不变式与边界处理。", some 7⟩ :=
  c9_rule_reply_pure_and_keyed.2.2 "请讲讲二分" "backend" "algorithms"
    (by decide) (by decide) (by decide) (by decide)

/-- Store used for the C1 witness: one registered user "alice" bound to
id 1 (no users:seq key yet, so the next allocated id is 1). -/
def c1state : Mem :=
  ⟨[("user:byname:alice", .int 1)],
   [("user:1", [("id", "1"), ("username", "alice"), ("password_hash", "H")])], [], []⟩

/-- C1: with a nonempty trimmed username, registering when the binding
key `user:byname:{username}` already holds a value fails with Conflict
(409), writes no user record (the hash store is untouched), leaves the
existing binding unchanged, and still increments the global `users:seq`
counter (the allocated id is not reclaimed); when the binding key is
absent the set-if-absent write succeeds and registration completes,
binding the username to the freshly allocated id. -/
theorem c1_register_conflict_and_success :
    ∀ (now : Nat) (createdAt : String) (hashFn : String → String)
      (username password : String) (st : Mem) (n : Int),
    Clean now st →
    pyStrip username ≠ "" →
    curInt st "users:seq" = some n →
    (∀ w : PyVal, assocFind st.kv ("user:byname:" ++ pyStrip username) = some w →
       (register now createdAt hashFn username password st).1 =
         Except.error ⟨409, "Username already exists"⟩ ∧
       ((register now createdAt hashFn username password st).2).hash = st.hash ∧
       assocFind ((register now createdAt hashFn username password st).2).kv
         ("user:byname:" ++ pyStrip username) = some w ∧
       assocFind ((register now createdAt hashFn username password st).2).kv
         "users:seq" = some (.int (n + 1))) ∧
    (assocFind st.kv ("user:byname:" ++ pyStrip username) = none →
       (register now createdAt hashFn username password st).1 =
         Except.ok ⟨toString (n + 1), pyStrip username⟩ ∧
       assocFind ((register now createdAt hashFn username password st).2).kv
         ("user:byname:" ++ pyStrip username) = some (.int (n + 1)) ∧
       assocFind ((register now createdAt hashFn username password st).2).kv
         "users:seq" = some (.int (n + 1))) := by
  intro now createdAt hashFn username password st n hc hu hn
  have hne : ("user:byname:" ++ pyStrip username) ≠ "users:seq" :=
    append_ne_of_shorter _ _ _ (by decide)
  have hne2 : "users:seq" ≠ ("user:byname:" ++ pyStrip username) := fun he => hne he.symm
  have h1 : Clean now (⟨assocSet st.kv "users:seq" (PyVal.int (n + 1)),
      st.hash, st.sets, st.ttl⟩ : Mem) := hc
  constructor
  · intro w hw
    have hreg : register now createdAt hashFn username password st =
        (Except.error ⟨409, "Username already exists"⟩,
         ⟨assocSet st.kv "users:seq" (PyVal.int (n + 1)), st.hash, st.sets, st.ttl⟩) := by
      simp only [register, if_neg hu, incr_clean_some hc hn, set_clean h1,
        assocFind_set_ne st.kv "users:seq" (PyVal.int (n + 1)) hne, hw,
        Option.isSome_some, Bool.and_true, Bool.and_self, if_true, Bool.not_false,
        Bool.true_and]
    rw [hreg]
    refine ⟨rfl, rfl, ?_, ?_⟩
    · show assocFind (assocSet st.kv "users:seq" (PyVal.int (n + 1)))
        ("user:byname:" ++ pyStrip username) = some w
      rw [assocFind_set_ne _ _ _ hne, hw]
    · exact assocFind_set_self _ _ _
  · intro habs
    have h2 : Clean now (⟨assocSet (assocSet st.kv "users:seq" (PyVal.int (n + 1)))
        ("user:byname:" ++ pyStrip username) (PyVal.int (n + 1)),
        st.hash, st.sets, assocErase st.ttl ("user:byname:" ++ pyStrip username)⟩ : Mem) :=
      Clean.of_erase hc _ _ _ _
    refine ⟨?_, ?_, ?_⟩ <;>
      simp only [register, if_neg hu, incr_clean_some hc hn, set_clean h1,
        assocFind_set_ne st.kv "users:seq" (PyVal.int (n + 1)) hne, habs,
        Option.isSome_none, Bool.and_false, Bool.false_eq_true, if_false,
        Bool.not_true, hset_clean h2]
    · rw [assocFind_set_self]
    · rw [assocFind_set_ne _ _ _ hne2, assocFind_set_self]

theorem c1_register_conflict_and_success_witness :
    ((register 0 "T" (fun _ => "H") " alice " "pw" c1state).1 =
       Except.error ⟨409, "Username already exists"⟩ ∧
     ((register 0 "T" (fun _ => "H") " alice " "pw" c1state).2).hash = c1state.hash ∧
     assocFind ((register 0 "T" (fun _ => "H") " alice " "pw" c1state).2).kv
       ("user:byname:" ++ pyStrip " alice ") = some (.int 1) ∧
     assocFind ((register 0 "T" (fun _ => "H") " alice " "pw" c1state).2).kv
       "users:seq" = some (.int (0 + 1))) ∧
    ((register 0 "T" (fun _ => "H") "bob" "pw" c1state).1 =
       Except.ok ⟨toString ((0 : Int) + 1), pyStrip "bob"⟩ ∧
     assocFind ((register 0 "T" (fun _ => "H") "bob" "pw" c1state).2).kv
       ("user:byname:" ++ pyStrip "bob") = some (.int (0 + 1)) ∧
     assocFind ((register 0 "T" (fun _ => "H") "bob" "pw" c1state).2).kv
       "users:seq" = some (.int (0 + 1))) :=
  by
  have hclean : Clean 0 c1state := by decide
  have hcur : curInt c1state "users:seq" = some 0 := by decide
  have hs1 : pyStrip " alice " ≠ "" := by decide
  have hs2 : pyStrip "bob" ≠ "" := by decide
  have hb1 : assocFind c1state.kv ("user:byname:" ++ pyStrip " alice ") =
      some (PyVal.int 1) := by decide
  have hb2 : assocFind c1state.kv ("user:byname:" ++ pyStrip "bob") = none := by decide
  exact ⟨(c1_register_conflict_and_success 0 "T" (fun _ => "H") " alice " "pw" c1state 0
            hclean hs1 hcur).1 (PyVal.int 1) hb1,
         (c1_register_conflict_and_success 0 "T" (fun _ => "H") "bob" "pw" c1state 0
            hclean hs2 hcur).2 hb2⟩

theorem listIsEmpty_false {α : Type} {l : List α} (h : l ≠ []) : l.isEmpty = false := by
  cases l with
  | nil => exact absurd rfl h
  | cons a t => rfl

/-- C5: a login attempt with an unknown (unbound) username and a login
attempt with a known username but a password whose stored hash does not
verify produce the identical observable outcome: the same Unauthorized
(401) error with the same detail "Invalid credentials". -/
theorem c5_login_unknown_vs_wrong_password :
    ∀ (now : Nat) (verify : String → String → Bool) (tok1 tok2 : String) (ttl : Nat)
      (u1 p1 u2 p2 : String) (st : Mem) (w : PyVal) (user : List (String × String)),
    Clean now st →
    isFalsy ((assocFind st.kv ("user:byname:" ++ pyStrip u1)).map PyVal.toStr) = true →
    assocFind st.kv ("user:byname:" ++ pyStrip u2) = some w →
    w.toStr ≠ "" →
    assocFind st.hash ("user:" ++ w.toStr) = some user →
    user ≠ [] →
    verify p2 ((assocFind user "password_hash").getD "") = false →
    (login now verify tok1 ttl u1 p1 st).1 = Except.error invalidCredsErr ∧
    (login now verify tok2 ttl u2 p2 st).1 = Except.error invalidCredsErr ∧
    (login now verify tok1 ttl u1 p1 st).1 = (login now verify tok2 ttl u2 p2 st).1 := by
  intro now verify tok1 tok2 ttl u1 p1 u2 p2 st w user hc h1 h2 h3 h4 h5 h6
  have e1 : (login now verify tok1 ttl u1 p1 st).1 = Except.error invalidCredsErr := by
    simp only [login, getUserByUsername, get_clean hc, h1, if_true]
  have e2 : (login now verify tok2 ttl u2 p2 st).1 = Except.error invalidCredsErr := by
    simp only [login, getUserByUsername, get_clean hc, h2, Option.map_some',
      isFalsy_some_ne h3, Bool.false_eq_true, if_false, Option.getD_some,
      hgetall_clean hc, h4, listIsEmpty_false h5, h6, Bool.not_false, if_true]
  exact ⟨e1, e2, by rw [e1, e2]⟩

/-- Store used for the C5 witness: one registered user "alice". -/
def c5state : Mem :=
  ⟨[("user:byname:alice", .int 1)],
   [("user:1", [("id", "1"), ("username", "alice"), ("password_hash", "H")])], [], []⟩

theorem c5_login_unknown_vs_wrong_password_witness :
    (login 0 (fun _ _ => false) "t1" 60 "bob" "pw" c5state).1 = Except.error invalidCredsErr ∧
    (login 0 (fun _ _ => false) "t2" 60 "alice" "pw" c5state).1 = Except.error invalidCredsErr ∧
    (login 0 (fun _ _ => false) "t1" 60 "bob" "pw" c5state).1 =
      (login 0 (fun _ _ => false) "t2" 60 "alice" "pw" c5state).1 :=
  c5_login_unknown_vs_wrong_password 0 (fun _ _ => false) "t1" "t2"
    60 "bob" "pw" "alice" "pw" c5state (.int 1)
    [("id", "1"), ("username", "alice"), ("password_hash", "H")]
    (by decide) (by decide) (by decide) (by decide) (by decide) (by decide) (by decide)

/-- Caller resolution on a clean state: a session entry with a nonempty
user id whose user hash carries `id` and `username` fields resolves to
that public identity, with the state unchanged. -/
theorem getUserByToken_ok {now : Nat} {st : Mem} {token : String} {v : PyVal}
    {user : List (String × String)} {cid uname : String}
    (hc : Clean now st)
    (hv : assocFind st.kv ("session:" ++ token) = some v)
    (hne : v.toStr ≠ "")
    (hu : assocFind st.hash ("user:" ++ v.toStr) = some user)
    (hune : user ≠ [])
    (hid : assocFind user "id" = some cid)
    (huname : assocFind user "username" = some uname) :
    getUserByToken now token st = (Except.ok ⟨cid, uname⟩, st) := by
  simp only [getUserByToken, get_clean hc, hv, Option.map_some', isFalsy_some_ne hne,
    Bool.false_eq_true, if_false, Option.getD_some, hgetall_clean hc, hu,
    listIsEmpty_false hune, dget, hid, huname]

/-- C3: on an existing, non-soft-deleted post, an authenticated caller
whose resolved id differs from the stored `author_id` gets Forbidden
(403) from both update and delete, and the hash store (hence the post
record) is unchanged — for every such non-owner identity. -/
theorem c3_non_owner_forbidden :
    ∀ (now : Nat) (nowIso postId : String) (title content : Option String)
      (token : String) (st : Mem) (data user : List (String × String)) (v : PyVal)
      (aid cid uname : String),
    Clean now st →
    assocFind st.hash ("forum:post:" ++ postId) = some data →
    data ≠ [] →
    assocFind data "deleted" ≠ some "1" →
    assocFind data "author_id" = some aid →
    assocFind st.kv ("session:" ++ token) = some v →
    v.toStr ≠ "" →
    assocFind st.hash ("user:" ++ v.toStr) = some user →
    user ≠ [] →
    assocFind user "id" = some cid →
    assocFind user "username" = some uname →
    cid ≠ aid →
    (updatePost now nowIso postId title content token st).1 =
      Except.error ⟨403, "Forbidden"⟩ ∧
    ((updatePost now nowIso postId title content token st).2).hash = st.hash ∧
    (deletePost now postId token st).1 = Except.error ⟨403, "Forbidden"⟩ ∧
    ((deletePost now postId token st).2).hash = st.hash := by
  intro now nowIso postId title content token st data user v aid cid uname
  intro hc hpost hdata hdel ha hv hne hu hune hid huname hcid
  have hu2 := getUserByToken_ok hc hv hne hu hune hid huname
  have hupd : updatePost now nowIso postId title content token st =
      (Except.error ⟨403, "Forbidden"⟩, st) := by
    simp only [updatePost, hgetall_clean hc, hpost, Option.getD_some,
      listIsEmpty_false hdata, decide_eq_false hdel, Bool.or_self,
      Bool.false_eq_true, if_false, hu2, ha]
    rw [if_pos (fun he => hcid (Option.some.inj he).symm)]
  have hdel2 : deletePost now postId token st =
      (Except.error ⟨403, "Forbidden"⟩, st) := by
    simp only [deletePost, hgetall_clean hc, hpost, Option.getD_some,
      listIsEmpty_false hdata, decide_eq_false hdel, Bool.or_self,
      Bool.false_eq_true, if_false, hu2, ha]
    rw [if_pos (fun he => hcid (Option.some.inj he).symm)]
  rw [hupd, hdel2]
  exact ⟨rfl, rfl, rfl, rfl⟩

/-- Store used for the C3 witness: post 9 authored by user 1, and a valid
session for a different user 2. -/
def c3state : Mem :=
  ⟨[("session:tok", .str "2")],
   [("forum:post:9", [("id", "9"), ("title", "T"), ("content", "C"),
      ("author", "alice"), ("author_id", "1"), ("created_at", "T0"), ("deleted", "0")]),
    ("user:2", [("id", "2"), ("username", "bob"), ("password_hash", "H")])], [], []⟩

theorem c3_non_owner_forbidden_witness :
    (updatePost 0 "T" "9" (some "X") none "tok" c3state).1 =
      Except.error ⟨403, "Forbidden"⟩ ∧
    ((updatePost 0 "T" "9" (some "X") none "tok" c3state).2).hash = c3state.hash ∧
    (deletePost 0 "9" "tok" c3state).1 = Except.error ⟨403, "Forbidden"⟩ ∧
    ((deletePost 0 "9" "tok" c3state).2).hash = c3state.hash := by
  have h := c3_non_owner_forbidden 0 "T" "9" (some "X") none "tok" c3state
    [("id", "9"), ("title", "T"), ("content", "C"), ("author", "alice"),
     ("author_id", "1"), ("created_at", "T0"), ("deleted", "0")]
    [("id", "2"), ("username", "bob"), ("password_hash", "H")]
    (.str "2") "1" "2" "bob"
    (by decide) (by decide) (by decide) (by decide) (by decide) (by decide)
    (by decide) (by decide) (by decide) (by decide) (by decide) (by decide)
  exact h

/-- C6: Logout never fails: with a bound token it deletes the
`session:{token}` mapping and removes the token from the user's
active-token set and returns success; with an unknown token it performs
no removal (the state is only the lazily cleaned one, with hashes and
sets untouched) and returns the same success; in particular a second
logout on the same token also succeeds. -/
theorem c6_logout_idempotent_success :
    (∀ (now : Nat) (token : String) (st : Mem), (logout now token st).1 = Except.ok true) ∧
    (∀ (now : Nat) (token : String) (st : Mem),
       (logout now token (logout now token st).2).1 = Except.ok true) ∧
    (∀ (now : Nat) (token : String) (st : Mem) (u : String),
       (st.get now ("session:" ++ token)).1 = some u → u ≠ "" →
       assocFind ((logout now token st).2).kv ("session:" ++ token) = none ∧
       PyVal.str token ∉ (assocFind ((logout now token st).2).sets
         ("user:sessions:" ++ u)).getD []) ∧
    (∀ (now : Nat) (token : String) (st : Mem),
       isFalsy (st.get now ("session:" ++ token)).1 = true →
       (logout now token st).2 = cleanup now st ∧
       ((logout now token st).2).sets = st.sets ∧
       ((logout now token st).2).hash = st.hash) := by
  have hok : ∀ (now : Nat) (token : String) (st : Mem),
      (logout now token st).1 = Except.ok true := by
    intro now token st
    simp only [logout]
    split
    · rfl
    · rfl
  refine ⟨hok, fun now token st => hok now token _, ?_, ?_⟩
  · intro now token st u hget hne
    have h1 : Clean now (cleanup now st) := clean_cleanup now st
    have h2 : Clean now (⟨assocErase (cleanup now st).kv ("session:" ++ token),
        (cleanup now st).hash, (cleanup now st).sets,
        assocErase (cleanup now st).ttl ("session:" ++ token)⟩ : Mem) :=
      Clean.of_erase h1 _ _ _ _
    simp only [logout, hget, isFalsy_some_ne hne, Bool.not_false, if_true, Option.getD_some,
      get_snd, delete_clean h1, srem_clean h2, List.foldl_cons, List.foldl_nil]
    constructor
    · exact assocFind_erase_self _ _
    · rw [assocFind_set_self]
      exact not_mem_listRem _ _
  · intro now token st hfal
    refine ⟨?_, ?_, ?_⟩ <;> simp [logout, hfal, get_snd, cleanup]

/-- Store used for the C6 witness: a bound session for user id 1 whose
token also sits in the user's active-token set. -/
def c6state : Mem :=
  ⟨[("session:tok", .str "1")], [], [("user:sessions:1", [.str "tok"])], []⟩

theorem c6_logout_idempotent_success_witness :
    ((logout 0 "tok" c6state).1 = Except.ok true ∧
       (logout 0 "tok" (logout 0 "tok" c6state).2).1 = Except.ok true) ∧
    (assocFind ((logout 0 "tok" c6state).2).kv ("session:" ++ "tok") = none ∧
       PyVal.str "tok" ∉ (assocFind ((logout 0 "tok" c6state).2).sets
         ("user:sessions:" ++ "1")).getD []) ∧
    ((logout 0 "missing" c6state).2 = cleanup 0 c6state ∧
       ((logout 0 "missing" c6state).2).sets = c6state.sets ∧
       ((logout 0 "missing" c6state).2).hash = c6state.hash) :=
  ⟨⟨c6_logout_idempotent_success.1 0 "tok" c6state,
    c6_logout_idempotent_success.2.1 0 "tok" c6state⟩,
   c6_logout_idempotent_success.2.2.1 0 "tok" c6state "1" (by decide) (by decide),
   c6_logout_idempotent_success.2.2.2 0 "missing" c6state (by decide)⟩

theorem listRem_of_not_mem {l : List PyVal} {x : PyVal} (hx : x ∉ l) :
    listRem l x = l := by
  apply List.filter_eq_self.mpr
  intro a ha
  exact decide_eq_true (fun he => hx (he ▸ ha))

theorem not_mem_of_listRem {l : List PyVal} {x y : PyVal} (h : y ∈ listRem l x) : y ∈ l :=
  (List.mem_filter.mp h).1

theorem length_listRem_succ {l : List PyVal} {x : PyVal} (hnd : l.Nodup) (hx : x ∈ l) :
    (listRem l x).length + 1 = l.length := by
  induction l with
  | nil => cases hx
  | cons a t ih =>
    rcases List.nodup_cons.mp hnd with ⟨hat, hndt⟩
    rcases List.mem_cons.mp hx with he | hm
    · subst he
      unfold listRem
      rw [List.filter_cons, if_neg (by simp)]
      have hxt : listRem t x = t := listRem_of_not_mem hat
      unfold listRem at hxt
      rw [hxt]
      rfl
    · have hax : a ≠ x := fun he2 => hat (he2 ▸ hm)
      unfold listRem
      rw [List.filter_cons, if_pos (by simp [hax])]
      simp only [List.length_cons]
      have hrec := ih hndt hm
      unfold listRem at hrec
      omega

theorem listAdd_of_not_mem {l : List PyVal} {x : PyVal} (hx : x ∉ l) :
    listAdd l x = l ++ [x] := by
  unfold listAdd
  rw [if_neg hx]

/-- One like-toggle by a resolved caller whose id is already in the likes
set: the membership is removed and the response reports the new state. -/
theorem toggleLike_mem {now : Nat} {st : Mem} {postId token : String} {v : PyVal}
    {user : List (String × String)} {cid uname : String}
    (hc : Clean now st)
    (hv : assocFind st.kv ("session:" ++ token) = some v)
    (hne : v.toStr ≠ "")
    (hu : assocFind st.hash ("user:" ++ v.toStr) = some user)
    (hune : user ≠ [])
    (hid : assocFind user "id" = some cid)
    (huname : assocFind user "username" = some uname)
    (hm : PyVal.str cid ∈ (assocFind st.sets ("forum:post:" ++ postId ++ ":likes")).getD []) :
    toggleLike now postId token st =
      (Except.ok (false,
         ((listRem ((assocFind st.sets ("forum:post:" ++ postId ++ ":likes")).getD [])
            (PyVal.str cid)).length : Int)),
       ⟨st.kv, st.hash,
        assocSet st.sets ("forum:post:" ++ postId ++ ":likes")
          (listRem ((assocFind st.sets ("forum:post:" ++ postId ++ ":likes")).getD [])
            (PyVal.str cid)),
        st.ttl⟩) := by
  have h1 : Clean now (⟨st.kv, st.hash,
      assocSet st.sets ("forum:post:" ++ postId ++ ":likes")
        (listRem ((assocFind st.sets ("forum:post:" ++ postId ++ ":likes")).getD [])
          (PyVal.str cid)), st.ttl⟩ : Mem) := hc
  simp only [toggleLike, getUserByToken_ok hc hv hne hu hune hid huname,
    sismember_clean hc, decide_eq_true hm, if_true, srem_clean hc,
    List.foldl_cons, List.foldl_nil, scard_clean h1, assocFind_set_self,
    Option.getD_some]

/-- One like-toggle by a resolved caller whose id is not in the likes
set: the membership is added and the response reports the new state. -/
theorem toggleLike_not_mem {now : Nat} {st : Mem} {postId token : String} {v : PyVal}
    {user : List (String × String)} {cid uname : String}
    (hc : Clean now st)
    (hv : assocFind st.kv ("session:" ++ token) = some v)
    (hne : v.toStr ≠ "")
    (hu : assocFind st.hash ("user:" ++ v.toStr) = some user)
    (hune : user ≠ [])
    (hid : assocFind user "id" = some cid)
    (huname : assocFind user "username" = some uname)
    (hm : PyVal.str cid ∉ (assocFind st.sets ("forum:post:" ++ postId ++ ":likes")).getD []) :
    toggleLike now postId token st =
      (Except.ok (true,
         ((((assocFind st.sets ("forum:post:" ++ postId ++ ":likes")).getD [] : List PyVal)
            ++ [PyVal.str cid]).length : Int)),
       ⟨st.kv, st.hash,
        assocSet st.sets ("forum:post:" ++ postId ++ ":likes")
          (((assocFind st.sets ("forum:post:" ++ postId ++ ":likes")).getD [])
            ++ [PyVal.str cid]),
        st.ttl⟩) := by
  have h1 : Clean now (⟨st.kv, st.hash,
      assocSet st.sets ("forum:post:" ++ postId ++ ":likes")
        ((assocFind st.sets ("forum:post:" ++ postId ++ ":likes")).getD []
          ++ [PyVal.str cid]), st.ttl⟩ : Mem) := hc
  simp only [toggleLike, getUserByToken_ok hc hv hne hu hune hid huname,
    sismember_clean hc, decide_eq_false hm, Bool.false_eq_true, if_false,
    sadd_clean hc, List.foldl_cons, List.foldl_nil, listAdd_of_not_mem hm,
    scard_clean h1, assocFind_set_self, Option.getD_some]

/-- C7: two sequential like-toggles by the same resolved caller restore
the likes set's membership and cardinality; the first call reports the
flipped membership with the updated cardinality, and the second call
reports the original membership state and the original cardinality. -/
theorem c7_toggle_like_involutive :
    ∀ (now : Nat) (postId token : String) (st : Mem) (v : PyVal)
      (user : List (String × String)) (cid uname : String) (l : List PyVal),
    Clean now st →
    assocFind st.kv ("session:" ++ token) = some v →
    v.toStr ≠ "" →
    assocFind st.hash ("user:" ++ v.toStr) = some user →
    user ≠ [] →
    assocFind user "id" = some cid →
    assocFind user "username" = some uname →
    (assocFind st.sets ("forum:post:" ++ postId ++ ":likes")).getD [] = l →
    l.Nodup →
    (toggleLike now postId token st).1 =
      Except.ok (!(decide (PyVal.str cid ∈ l)),
        if PyVal.str cid ∈ l then (l.length : Int) - 1 else (l.length : Int) + 1) ∧
    (toggleLike now postId token (toggleLike now postId token st).2).1 =
      Except.ok (decide (PyVal.str cid ∈ l), (l.length : Int)) ∧
    ((PyVal.str cid ∈
        (assocFind ((toggleLike now postId token (toggleLike now postId token st).2).2).sets
          ("forum:post:" ++ postId ++ ":likes")).getD []) ↔ PyVal.str cid ∈ l) ∧
    List.length ((assocFind
        ((toggleLike now postId token (toggleLike now postId token st).2).2).sets
        ("forum:post:" ++ postId ++ ":likes")).getD []) = l.length := by
  intro now postId token st v user cid uname l hc hv hne hu hune hid huname hl hnd
  by_cases hm : PyVal.str cid ∈ l
  · -- first toggle removes, second re-adds
    have ht1 := toggleLike_mem hc hv hne hu hune hid huname (by rw [hl]; exact hm)
    rw [hl] at ht1
    have hlen := length_listRem_succ hnd hm
    have hrm : PyVal.str cid ∉ listRem l (PyVal.str cid) := not_mem_listRem _ _
    -- second call runs on the updated state
    have hst2 : Clean now (⟨st.kv, st.hash,
        assocSet st.sets ("forum:post:" ++ postId ++ ":likes")
          (listRem l (PyVal.str cid)), st.ttl⟩ : Mem) := hc
    have ht2 := @toggleLike_not_mem now
      (⟨st.kv, st.hash, assocSet st.sets ("forum:post:" ++ postId ++ ":likes")
          (listRem l (PyVal.str cid)), st.ttl⟩)
      postId token v user cid uname hst2 hv hne hu hune hid huname
      (by rw [assocFind_set_self, Option.getD_some]; exact hrm)
    rw [assocFind_set_self, Option.getD_some] at ht2
    rw [ht1]
    refine ⟨?_, ?_, ?_, ?_⟩
    · simp only [decide_eq_true hm, Bool.not_true, if_pos hm]
      have : ((listRem l (PyVal.str cid)).length : Int) = (l.length : Int) - 1 := by omega
      rw [this]
    · rw [ht2]
      simp only [decide_eq_true hm, List.length_append, List.length_cons, List.length_nil]
      have : (((listRem l (PyVal.str cid)).length + (0 + 1) : Nat) : Int) = (l.length : Int) := by
        omega
      rw [this]
    · rw [ht2]
      simp only [assocFind_set_self, Option.getD_some]
      constructor
      · intro _
        exact hm
      · intro _
        exact List.mem_append_right _ (List.mem_singleton.mpr rfl)
    · rw [ht2]
      simp only [assocFind_set_self, Option.getD_some, List.length_append,
        List.length_cons, List.length_nil]
      omega
  · -- first toggle adds, second removes
    have ht1 := toggleLike_not_mem hc hv hne hu hune hid huname (by rw [hl]; exact hm)
    rw [hl] at ht1
    have hm2 : PyVal.str cid ∈ l ++ [PyVal.str cid] :=
      List.mem_append_right _ (List.mem_singleton.mpr rfl)
    have hst2 : Clean now (⟨st.kv, st.hash,
        assocSet st.sets ("forum:post:" ++ postId ++ ":likes")
          (l ++ [PyVal.str cid]), st.ttl⟩ : Mem) := hc
    have ht2 := @toggleLike_mem now
      (⟨st.kv, st.hash, assocSet st.sets ("forum:post:" ++ postId ++ ":likes")
          (l ++ [PyVal.str cid]), st.ttl⟩)
      postId token v user cid uname hst2 hv hne hu hune hid huname
      (by rw [assocFind_set_self, Option.getD_some]; exact hm2)
    rw [assocFind_set_self, Option.getD_some] at ht2
    have hrem : listRem (l ++ [PyVal.str cid]) (PyVal.str cid) = l := by
      unfold listRem
      rw [List.filter_append]
      have h1 : l.filter (fun x => decide (x ≠ PyVal.str cid)) = l := listRem_of_not_mem hm
      unfold listRem at h1
      rw [h1, List.filter_cons, if_neg (by simp), List.filter_nil, List.append_nil]
    rw [hrem] at ht2
    rw [ht1]
    refine ⟨?_, ?_, ?_, ?_⟩
    · simp only [decide_eq_false hm, Bool.not_false, if_neg hm, List.length_append,
        List.length_cons, List.length_nil]
      have : ((l.length + (0 + 1) : Nat) : Int) = (l.length : Int) + 1 := by omega
      rw [this]
    · rw [ht2]
      simp only [decide_eq_false hm]
    · rw [ht2]
      simp only [assocFind_set_self, Option.getD_some]
    · rw [ht2]
      simp only [assocFind_set_self, Option.getD_some]

/-- Store used for the C7 witness: a valid session for user 2 and post 9
liked only by user 1. -/
def c7state : Mem :=
  ⟨[("session:tok", .str "2")],
   [("user:2", [("id", "2"), ("username", "bob")])],
   [("forum:post:9:likes", [.str "1"])], []⟩

theorem c7_toggle_like_involutive_witness :
    (toggleLike 0 "9" "tok" c7state).1 =
      Except.ok (!(decide (PyVal.str "2" ∈ [PyVal.str "1"])),
        if PyVal.str "2" ∈ [PyVal.str "1"] then ((1 : Int)) - 1 else ((1 : Int)) + 1) ∧
    (toggleLike 0 "9" "tok" (toggleLike 0 "9" "tok" c7state).2).1 =
      Except.ok (decide (PyVal.str "2" ∈ [PyVal.str "1"]), (1 : Int)) ∧
    ((PyVal.str "2" ∈
        (assocFind ((toggleLike 0 "9" "tok" (toggleLike 0 "9" "tok" c7state).2).2).sets
          ("forum:post:" ++ "9" ++ ":likes")).getD []) ↔ PyVal.str "2" ∈ [PyVal.str "1"]) ∧
    List.length ((assocFind
        ((toggleLike 0 "9" "tok" (toggleLike 0 "9" "tok" c7state).2).2).sets
        ("forum:post:" ++ "9" ++ ":likes")).getD []) =
      ([PyVal.str "1"] : List PyVal).length := by
  have h := c7_toggle_like_involutive 0 "9" "tok" c7state (.str "2")
    [("id", "2"), ("username", "bob")] "2" "bob" [.str "1"]
    (by decide) (by decide) (by decide) (by decide) (by decide) (by decide)
    (by decide) (by decide) (by decide)
  exact h

/-- Store used for the C8 counterexample: a resolvable session for user
id 1, and no study-mistake record at all. -/
def c8state : Mem := ⟨[("session:tok", .str "1")], [], [], []⟩

/-- C8 counterexample: with a valid session and no record
`study:1:mistake:42`, deleting mistake 42 does NOT fail with NotFound —
the call returns `{"ok": true}`. -/
theorem c8_delete_missing_counterexample :
    (deleteMistake 0 "tok" "42" c8state).1 = Except.ok true := by decide

/-- C8 (amended): deleting a study mistake whose record does not exist is
a silent success: the handler returns `{"ok": true}` and leaves the store
unchanged; it does not fail with NotFound (the NotFound-on-missing pattern
applies to the forum update/delete handlers, not to study mistake delete). -/
theorem c8_delete_missing_silent_success :
    ∀ (now : Nat) (token mid : String) (st : Mem) (v : PyVal),
    Clean now st →
    assocFind st.kv ("session:" ++ token) = some v →
    v.toStr ≠ "" →
    assocFind st.hash ("study:" ++ v.toStr ++ ":mistake:" ++ mid) = none →
    deleteMistake now token mid st = (Except.ok true, st) := by
  intro now token mid st v hc hv hne hmiss
  simp only [deleteMistake, get_clean hc, hv, Option.map_some', isFalsy_some_ne hne,
    Option.getD_some, Bool.false_eq_true, if_false, hgetall_clean hc, hmiss,
    Option.getD_none, List.isEmpty_nil, if_true]

theorem c8_delete_missing_silent_success_witness :
    deleteMistake 0 "tok" "42" c8state = (Except.ok true, c8state) :=
  c8_delete_missing_silent_success 0 "tok" "42" c8state (.str "1")
    (by decide) (by decide) (by decide) (by decide)

theorem cleanup_hash (now : Nat) (st : Mem) : (cleanup now st).hash = st.hash := rfl

theorem hgetall_fst (st : Mem) (now : Nat) (k : String) :
    (st.hgetall now k).1 = (assocFind st.hash k).getD [] := rfl

theorem hgetall_snd (st : Mem) (now : Nat) (k : String) :
    (st.hgetall now k).2 = cleanup now st := rfl

theorem scard_snd (st : Mem) (now : Nat) (k : String) :
    (st.scard now k).2 = cleanup now st := rfl

theorem not_eq_true_imp {b : Bool} (h : (!b) = true) : b = false := by
  cases b with
  | false => rfl
  | true => cases h

theorem ne_nil_of_isEmpty_false {α : Type} {l : List α} (h : l.isEmpty = false) :
    l ≠ [] := by
  cases l with
  | nil => cases h
  | cons a t => simp

theorem eq_some_of_getD_ne_nil {α : Type} {o : Option (List α)}
    (h : (o.getD []) ≠ []) : o = some (o.getD []) := by
  cases o with
  | none => exact absurd rfl h
  | some x => rfl

/-- Soundness of the post-listing loop: every item it can ever return
refers to a record of the (loop-invariant) hash store that exists and is
not soft-deleted. -/
theorem postsLoop_sound (now : Nat) (nowIso : String) (offset limit : Int)
    (hash0 : List (String × List (String × String))) :
    ∀ (i count idx : Nat) (st : Mem) (items items2 : List PostPublic),
    st.hash = hash0 →
    (∀ item ∈ items, ∃ d, assocFind hash0 ("forum:post:" ++ item.id) = some d ∧
        d ≠ [] ∧ assocFind d "deleted" ≠ some "1") →
    (postsLoop now nowIso offset limit i count idx st items).1 = Except.ok items2 →
    (∀ item ∈ items2, ∃ d, assocFind hash0 ("forum:post:" ++ item.id) = some d ∧
        d ≠ [] ∧ assocFind d "deleted" ≠ some "1") := by
  intro i
  induction i with
  | zero =>
    intro count idx st items items2 hh hitems hres
    have he : Except.ok items = Except.ok items2 := hres
    injection he with he2
    subst he2
    exact hitems
  | succ i ih =>
    intro count idx st items items2 hh hitems hres
    simp only [postsLoop, hgetall_fst, hgetall_snd, get_snd, scard_snd, cleanup_hash,
      hh] at hres
    by_cases h1 : ¬((count : Int) < limit)
    · rw [if_pos h1] at hres
      have he : Except.ok items = Except.ok items2 := hres
      injection he with he2
      subst he2
      exact hitems
    · rw [if_neg h1] at hres
      by_cases h2 : offset ≤ (idx : Int)
      · rw [if_pos h2] at hres
        by_cases h3 : (!((assocFind hash0 ("forum:post:" ++ toString (i + 1))).getD
              ([] : List (String × String))).isEmpty &&
            !(decide (assocFind ((assocFind hash0
                ("forum:post:" ++ toString (i + 1))).getD []) "deleted" = some "1"))) = true
        · rw [if_pos h3] at hres
          rw [Bool.and_eq_true] at h3
          obtain ⟨ha, hb⟩ := h3
          have hane : ((assocFind hash0 ("forum:post:" ++ toString (i + 1))).getD
              ([] : List (String × String))) ≠ [] :=
            ne_nil_of_isEmpty_false (not_eq_true_imp ha)
          have hfind := eq_some_of_getD_ne_nil hane
          have hdel : assocFind ((assocFind hash0
              ("forum:post:" ++ toString (i + 1))).getD []) "deleted" ≠ some "1" :=
            of_decide_eq_false (not_eq_true_imp hb)
          cases hg : intOr0 ((AsyncMemoryRedis.get (cleanup now (cleanup now st)) now
              ("forum:post:" ++ toString (i + 1) ++ ":comments_cnt")).1) with
          | none =>
            rw [hg] at hres
            cases hres
          | some comments =>
            rw [hg] at hres
            have hres2 : (postsLoop now nowIso offset limit i (count + 1) (idx + 1)
                (cleanup now (cleanup now (cleanup now st)))
                (items ++ [postProjection nowIso (toString (i + 1))
                  ((assocFind hash0 ("forum:post:" ++ toString (i + 1))).getD [])
                  (AsyncMemoryRedis.scard (cleanup now st) now
                    ("forum:post:" ++ toString (i + 1) ++ ":likes")).1 comments])).1 =
                Except.ok items2 := hres
            refine ih (count + 1) (idx + 1) (cleanup now (cleanup now (cleanup now st)))
              _ items2 hh ?_ hres2
            intro item hit
            rcases List.mem_append.mp hit with hold | hnew
            · exact hitems item hold
            · have hid2 : item.id = toString (i + 1) := by
                rw [List.mem_singleton.mp hnew]
                rfl
              rw [hid2]
              exact ⟨_, hfind, hane, hdel⟩
        · rw [if_neg h3] at hres
          exact ih count (idx + 1) (cleanup now st) items items2 hh hitems hres
      · rw [if_neg h2] at hres
        exact ih count (idx + 1) st items items2 hh hitems hres

/-- Soundness of the comment-listing loop: every item it can ever return
refers to a record of the (loop-invariant) hash store that exists and is
not soft-deleted. -/
theorem commentsLoop_sound (now : Nat) (nowIso postId : String)
    (hash0 : List (String × List (String × String))) :
    ∀ (r i : Nat) (st : Mem) (items : List CommentPublic),
    st.hash = hash0 →
    (∀ item ∈ items, ∃ d,
        assocFind hash0 ("forum:comment:" ++ postId ++ ":" ++ item.id) = some d ∧
        d ≠ [] ∧ assocFind d "deleted" ≠ some "1") →
    ∀ item ∈ (commentsLoop now nowIso postId i r st items).1,
      ∃ d, assocFind hash0 ("forum:comment:" ++ postId ++ ":" ++ item.id) = some d ∧
        d ≠ [] ∧ assocFind d "deleted" ≠ some "1" := by
  intro r
  induction r with
  | zero =>
    intro i st items hh hitems item hit
    exact hitems item hit
  | succ r ih =>
    intro i st items hh hitems item hit
    simp only [commentsLoop, hgetall_fst, hgetall_snd, hh] at hit
    by_cases h3 : (!((assocFind hash0 ("forum:comment:" ++ postId ++ ":" ++ toString i)).getD
          ([] : List (String × String))).isEmpty &&
        !(decide (assocFind ((assocFind hash0
            ("forum:comment:" ++ postId ++ ":" ++ toString i)).getD []) "deleted" =
          some "1"))) = true
    · rw [if_pos h3] at hit
      rw [Bool.and_eq_true] at h3
      obtain ⟨ha, hb⟩ := h3
      have hane : ((assocFind hash0 ("forum:comment:" ++ postId ++ ":" ++ toString i)).getD
          ([] : List (String × String))) ≠ [] :=
        ne_nil_of_isEmpty_false (not_eq_true_imp ha)
      have hfind := eq_some_of_getD_ne_nil hane
      have hdel : assocFind ((assocFind hash0
          ("forum:comment:" ++ postId ++ ":" ++ toString i)).getD []) "deleted" ≠
          some "1" :=
        of_decide_eq_false (not_eq_true_imp hb)
      refine ih (i + 1) (cleanup now st) _ hh ?_ item hit
      intro it hitm
      rcases List.mem_append.mp hitm with hold | hnew
      · exact hitems it hold
      · have hid2 : it.id = toString i := by
          rw [List.mem_singleton.mp hnew]
        rw [hid2]
        exact ⟨_, hfind, hane, hdel⟩
    · rw [if_neg h3] at hit
      exact ih (i + 1) (cleanup now st) items hh hitems item hit

/-- C4: a forum post or comment whose stored record has the soft-delete
flag set is invisible to every read operation: it is omitted from the
post listing and the comment listing, `get_post` on it yields NotFound
(404), and update/delete on it yield NotFound. -/
theorem c4_soft_deleted_invisible :
    ∀ (now : Nat) (nowIso : String) (offset limit : Int) (st : Mem)
      (pid cid2 postId2 : String) (data cdata : List (String × String))
      (title content : Option String) (token : String)
      (v : PyVal) (user : List (String × String)) (uid uname : String),
    Clean now st →
    assocFind st.hash ("forum:post:" ++ pid) = some data →
    assocFind data "deleted" = some "1" →
    assocFind st.hash ("forum:comment:" ++ postId2 ++ ":" ++ cid2) = some cdata →
    assocFind cdata "deleted" = some "1" →
    assocFind st.kv ("session:" ++ token) = some v →
    v.toStr ≠ "" →
    assocFind st.hash ("user:" ++ v.toStr) = some user →
    user ≠ [] →
    assocFind user "id" = some uid →
    assocFind user "username" = some uname →
    (∀ items, (listPosts now nowIso offset limit st).1 = Except.ok items →
       ∀ item ∈ items, item.id ≠ pid) ∧
    (getPost now nowIso pid st).1 = Except.error ⟨404, "Post not found"⟩ ∧
    (updatePost now nowIso pid title content token st).1 =
      Except.error ⟨404, "Post not found"⟩ ∧
    (deletePost now pid token st).1 = Except.error ⟨404, "Post not found"⟩ ∧
    (∀ items, (listComments now nowIso postId2 st).1 = Except.ok items →
       ∀ item ∈ items, item.id ≠ cid2) ∧
    (deleteComment now cid2 postId2 token st).1 =
      Except.error ⟨404, "Comment not found"⟩ := by
  intro now nowIso offset limit st pid cid2 postId2 data cdata title content token
  intro v user uid uname hc hpd hpdel hcd hcdel hv hne hu hune hid huname
  refine ⟨?_, ?_, ?_, ?_, ?_, ?_⟩
  · -- omitted from the post listing
    intro items hres item hit heq
    simp only [listPosts, get_snd] at hres
    cases hg : intOr0 ((st.get now "forum:post_seq").1) with
    | none =>
      rw [hg] at hres
      cases hres
    | some maxId =>
      rw [hg] at hres
      obtain ⟨d, hfd, hdne, hddel⟩ :=
        postsLoop_sound now nowIso offset limit st.hash maxId.toNat 0 0
          (cleanup now st) [] items rfl (by intro it h; cases h) hres item hit
      rw [heq, hpd] at hfd
      injection hfd with hfd2
      subst hfd2
      exact hddel hpdel
  · simp only [getPost, hgetall_clean hc, hpd, Option.getD_some,
      decide_eq_true hpdel, Bool.or_true, if_true]
  · simp only [updatePost, hgetall_clean hc, hpd, Option.getD_some,
      decide_eq_true hpdel, Bool.or_true, if_true]
  · simp only [deletePost, hgetall_clean hc, hpd, Option.getD_some,
      decide_eq_true hpdel, Bool.or_true, if_true]
  · -- omitted from the comment listing
    intro items hres item hit heq
    simp only [listComments, get_snd] at hres
    cases hg : intOr0 ((st.get now ("forum:post:" ++ postId2 ++ ":comments_cnt")).1) with
    | none =>
      rw [hg] at hres
      cases hres
    | some cnt =>
      rw [hg] at hres
      have hres2 : (commentsLoop now nowIso postId2 1 cnt.toNat (cleanup now st) []).1 =
          items := by
        have := hres
        injection this with h2
      obtain ⟨d, hfd, hdne, hddel⟩ :=
        commentsLoop_sound now nowIso postId2 st.hash cnt.toNat 1
          (cleanup now st) [] rfl (by intro it h; cases h) item (hres2 ▸ hit)
      rw [heq, hcd] at hfd
      injection hfd with hfd2
      subst hfd2
      exact hddel hcdel
  · simp only [deleteComment, getUserByToken_ok hc hv hne hu hune hid huname,
      hgetall_clean hc, hcd, Option.getD_some, decide_eq_true hcdel,
      Bool.or_true, if_true]

/-- Store used for the C4 witness: post 2 and comment 3 of post 7 are
soft-deleted; post 1 and comment 1 of post 7 are live; user 5 has a valid
session. -/
def c4state : Mem :=
  ⟨[("session:tok", .str "5"), ("forum:post_seq", .int 2),
    ("forum:post:7:comments_cnt", .int 3)],
   [("forum:post:2", [("id", "2"), ("title", "X"), ("content", "Y"),
      ("author", "eve"), ("author_id", "5"), ("created_at", "T"), ("deleted", "1")]),
    ("forum:post:1", [("id", "1"), ("title", "A"), ("content", "B"),
      ("author", "u"), ("author_id", "9"), ("created_at", "T"), ("deleted", "0")]),
    ("forum:comment:7:3", [("id", "3"), ("post_id", "7"), ("author", "eve"),
      ("author_id", "5"), ("content", "c"), ("created_at", "T"), ("deleted", "1")]),
    ("forum:comment:7:1", [("id", "1"), ("post_id", "7"), ("author", "u"),
      ("author_id", "9"), ("content", "ok"), ("created_at", "T"), ("deleted", "0")]),
    ("user:5", [("id", "5"), ("username", "eve"), ("password_hash", "H")])],
   [], []⟩

theorem c4_soft_deleted_invisible_witness :
    (∀ items, (listPosts 0 "T" 0 20 c4state).1 = Except.ok items →
       ∀ item ∈ items, item.id ≠ "2") ∧
    (getPost 0 "T" "2" c4state).1 = Except.error ⟨404, "Post not found"⟩ ∧
    (updatePost 0 "T" "2" none none "tok" c4state).1 =
      Except.error ⟨404, "Post not found"⟩ ∧
    (deletePost 0 "2" "tok" c4state).1 = Except.error ⟨404, "Post not found"⟩ ∧
    (∀ items, (listComments 0 "T" "7" c4state).1 = Except.ok items →
       ∀ item ∈ items, item.id ≠ "3") ∧
    (deleteComment 0 "3" "7" "tok" c4state).1 =
      Except.error ⟨404, "Comment not found"⟩ := by
  have h := c4_soft_deleted_invisible 0 "T" 0 20 c4state "2" "3" "7"
    [("id", "2"), ("title", "X"), ("content", "Y"), ("author", "eve"),
     ("author_id", "5"), ("created_at", "T"), ("deleted", "1")]
    [("id", "3"), ("post_id", "7"), ("author", "eve"), ("author_id", "5"),
     ("content", "c"), ("created_at", "T"), ("deleted", "1")]
    none none "tok" (.str "5")
    [("id", "5"), ("username", "eve"), ("password_hash", "H")] "5" "eve"
    (by decide) (by decide) (by decide) (by decide) (by decide) (by decide)
    (by decide) (by decide) (by decide) (by decide) (by decide)
  exact h

/-- Store used for the C10 evaluation: a resolvable session for user id 1. -/
def c10state : Mem := ⟨[("session:tok", .str "1")], [], [], []⟩

/-- C10: evaluation of add-mistake / delete-mistake / stats against the
in-process fallback store.  After creating a mistake with difficulty
"Easy" and tags ["hash"] and then deleting it, `stats` still reports
`total = 1` and `byTag = [("hash", 1)]` — the deletion was ineffective
because `AsyncMemoryRedis.delete` only removes scalar keys (the record
hash survives) and `srem` is called with the string path id `"1"` while
`sadd` stored the int id `1` — and `byDifficulty.Easy = 1` stays as the
create-time counter is never decremented. -/
theorem c10_stats_after_delete_eval :
    (stats 0 (fun _ => "2026-01-01") 7 "tok"
      (deleteMistake 0 "tok" "1"
        (addMistake 0 "2026-01-01T00:00:00+00:00" "tok" "two-sum" "Two Sum"
          (some "Easy") ["hash"] none c10state).2).2).1 =
    Except.ok ⟨1, [("Easy", 1), ("Medium", 0), ("Hard", 0)], [("hash", 1)],
      List.replicate 7 ("2026-01-01", 1)⟩ := by decide

end Ning
